import Mathlib

/-!
# Verification development for the `voronoi` and `weather` demos

Shallow embedding of `assignments/voronoi/main.cpp` and `assignments/weather/main.cpp`.

Conventions of the embedding:

* `float`/`double` values are elements of an arbitrary linearly ordered field `K`
  (exact arithmetic; `ℚ` for evaluation, `ℝ` for the trigonometric statements);
* the C math library functions `cos`, `sin`, `sqrt` are passed as parameters, `fmod` is
  defined by truncated division;
* the graphics driver is an explicit state on which the `gl*` calls act;
* the answers of the windowing library (cursor position, window size, `rand()` results)
  are passed in as an explicit environment.
-/

/-! ## Part 1: `assignments/voronoi/main.cpp` -/

namespace Voronoi

/-- The `SceneObject` structure: what is needed to render one object. -/
structure SceneObject (K : Type) where
  VAO : Nat
  vertexCount : Nat
  r : K
  g : K
  b : K
  x : K
  y : K
deriving DecidableEq, Repr

/-- A compiled shader program; only its `ID` is used by this file. -/
structure Shader where
  ID : Nat
deriving DecidableEq, Repr

section Mesh

variable {K : Type} [Field K]

/-- The local constant `triangleCount` of `instantiateCone`. -/
def triangleCount : Nat := 360

/-- The local constant `PI = 3.14159265` of `instantiateCone`. -/
def PI : K := 314159265 / 100000000

/-- The local `angleInterval = (2*PI) / (float) triangleCount`. -/
def angleInterval : K := (2 * PI) / (triangleCount : K)

/-- The nine floats pushed by iteration `i` of the loop of `instantiateCone`. -/
def coneTriangle (cos sin : K → K) (i : Nat) : List K :=
  [ 0, 0, 1,
    cos ((i : K) * angleInterval) * 3, sin ((i : K) * angleInterval) * 3, 0,
    cos (((i + 1 : Nat) : K) * angleInterval) * 3, sin (((i + 1 : Nat) : K) * angleInterval) * 3, 0 ]

/-- The vector `positions` at the end of the loop
`for (int i = 0; i < triangleCount; i++)` of `instantiateCone`. -/
def conePositions (cos sin : K → K) : List K :=
  (List.range triangleCount).foldl (fun positions i => positions ++ coneTriangle cos sin i) []

/-- The `k`-th vertex of a position buffer read with
`glVertexAttribPointer(loc, 3, GL_FLOAT, GL_FALSE, 0, 0)`: three tightly packed floats. -/
def vertexAt (positions : List K) (k : Nat) : Option (K × K × K) :=
  match positions[3 * k]?, positions[3 * k + 1]?, positions[3 * k + 2]? with
  | some a, some b, some c => some (a, b, c)
  | _, _, _ => none

/-- The function `instantiateCone`: the scene object it returns together with the position
buffer it uploads. `newVAO` is the handle handed out by `glGenVertexArrays`. -/
def instantiateCone (cos sin : K → K) (newVAO : Nat) (r g b offsetX offsetY : K) :
    SceneObject K × List K :=
  let positions := conePositions cos sin
  let vertexCount := (positions.length / 3) % 2 ^ 32
  ({ VAO := newVAO, vertexCount := vertexCount, r := r, g := g, b := b,
     x := offsetX, y := offsetY }, positions)

end Mesh

/-! ### Input callbacks and the scene-object store -/

/-- The constant `GLFW_MOUSE_BUTTON_LEFT` of the windowing library. -/
def GLFW_MOUSE_BUTTON_LEFT : Int := 0

/-- The constant `GLFW_PRESS` of the windowing library. -/
def GLFW_PRESS : Int := 1

/-- What the outside world answers during one call of `button_input_callback`:
`glfwGetCursorPos`, `glfwGetWindowSize`, three calls of `rand()` (with `RAND_MAX`),
and the handle produced by `glGenVertexArrays`. -/
structure ClickEnv (K : Type) where
  mXpos : K
  mYpos : K
  VP_sizeX : Int
  VP_sizeY : Int
  rand1 : Nat
  rand2 : Nat
  rand3 : Nat
  RAND_MAX : Nat
  newVAO : Nat

section Callbacks

variable {K : Type} [Field K]

/-- The function `button_input_callback`, acting on the global `sceneObjects`. -/
def button_input_callback (cos sin : K → K) (env : ClickEnv K) (button action : Int)
    (sceneObjects : List (SceneObject K)) : List (SceneObject K) :=
  if button = GLFW_MOUSE_BUTTON_LEFT ∧ action = GLFW_PRESS then
    let X_ndc : K := env.mXpos * 2 / (env.VP_sizeX : K) - 1
    let Y_ndc : K := -(env.mYpos * 2 / (env.VP_sizeY : K) - 1)
    let r : K := (env.rand1 : K) / (env.RAND_MAX : K)
    let g : K := (env.rand2 : K) / (env.RAND_MAX : K)
    let b : K := (env.rand3 : K) / (env.RAND_MAX : K)
    sceneObjects ++ [(instantiateCone cos sin env.newVAO r g b X_ndc Y_ndc).1]
  else sceneObjects

end Callbacks

/-! ### The driver state and the render loop -/

/-- One submitted draw: the program, uniforms and vertex array in force when
`glDrawArrays` was called, and its arguments. -/
structure DrawCall (K : Type) where
  program : Nat
  offset : K × K
  aColor : K × K × K
  vao : Nat
  mode : Nat
  first : Nat
  count : Nat
deriving DecidableEq, Repr

/-- The part of the driver state the voronoi demo touches. -/
structure GLState (K : Type) where
  program : Nat
  offset : K × K
  aColor : K × K × K
  boundVAO : Nat
  draws : List (DrawCall K)

/-- The primitive mode `GL_TRIANGLES`. -/
def GL_TRIANGLES : Nat := 4

section Render

variable {K : Type}

/-- The driver call `glUseProgram`. -/
def glUseProgram (id : Nat) (gl : GLState K) : GLState K := { gl with program := id }

/-- The driver call `glUniform2f` on the location of the uniform `offset`. -/
def glUniform2f_offset (x y : K) (gl : GLState K) : GLState K := { gl with offset := (x, y) }

/-- The driver call `glUniform3f` on the location of the uniform `aColor`. -/
def glUniform3f_aColor (r g b : K) (gl : GLState K) : GLState K :=
  { gl with aColor := (r, g, b) }

/-- The driver call `glBindVertexArray`. -/
def glBindVertexArray (vao : Nat) (gl : GLState K) : GLState K := { gl with boundVAO := vao }

/-- The driver call `glDrawArrays`: submits one draw with the state currently bound. -/
def glDrawArrays (mode first count : Nat) (gl : GLState K) : GLState K :=
  { gl with draws := gl.draws ++
      [{ program := gl.program, offset := gl.offset, aColor := gl.aColor, vao := gl.boundVAO,
         mode := mode, first := first, count := count }] }

/-- The function `draw(SceneObject s)`; `activeShader` is the `ID` of the active program. -/
def draw (activeShader : Nat) (s : SceneObject K) (gl : GLState K) : GLState K :=
  let gl := glUseProgram activeShader gl
  let gl := glUniform2f_offset s.x s.y gl
  let gl := glUniform3f_aColor s.r s.g s.b gl
  let gl := glBindVertexArray s.VAO gl
  glDrawArrays GL_TRIANGLES 0 s.vertexCount gl

/-- One pass of the body of the render loop of `main`, started with no draw submitted yet
in this frame: `glUseProgram(activeShader->ID)` and then
`for (SceneObject s : sceneObjects) draw(s)`. The calls that clear and swap the buffers
and poll the events submit no draw and are left out. -/
def renderPass (activeShader : Nat) (sceneObjects : List (SceneObject K)) (gl : GLState K) :
    GLState K :=
  let gl := { gl with draws := [] }
  let gl := glUseProgram activeShader gl
  sceneObjects.foldl (fun gl s => draw activeShader s gl) gl

/-- The draw that `draw(s)` is expected to submit for the object `s`. -/
def drawOf (activeShader : Nat) (s : SceneObject K) : DrawCall K :=
  { program := activeShader, offset := (s.x, s.y), aColor := (s.r, s.g, s.b), vao := s.VAO,
    mode := GL_TRIANGLES, first := 0, count := s.vertexCount }

/-- The store after appending the objects `objs` one by one with `push_back`. -/
def appendAll (store objs : List (SceneObject K)) : List (SceneObject K) :=
  objs.foldl (fun st o => st ++ [o]) store

end Render

end Voronoi

/-! ## Part 2: `assignments/weather/main.cpp` -/

namespace Weather

/-- The GLM type `vec2`. -/
structure vec2 (K : Type) where
  x : K
  y : K
deriving DecidableEq, Repr

/-- The GLM type `vec3`. -/
structure vec3 (K : Type) where
  x : K
  y : K
  z : K
deriving DecidableEq, Repr

/-- The GLM type `vec4`. -/
structure vec4 (K : Type) where
  x : K
  y : K
  z : K
  w : K
deriving DecidableEq, Repr

/-- The GLM type `mat4`, stored by columns as in GLM (`m[0]` .. `m[3]`). -/
structure mat4 (K : Type) where
  c0 : vec4 K
  c1 : vec4 K
  c2 : vec4 K
  c3 : vec4 K
deriving DecidableEq, Repr

/-! ### The library functions the program calls (GLM and the C math library) -/

section Library

variable {K : Type} [LinearOrderedField K]

/-- GLM `dot` on `vec2`. -/
def dot2 (a b : vec2 K) : K := a.x * b.x + a.y * b.y

/-- GLM `dot` on `vec3`. -/
def dot (a b : vec3 K) : K := a.x * b.x + a.y * b.y + a.z * b.z

/-- GLM `cross`. -/
def cross (a b : vec3 K) : vec3 K :=
  ⟨a.y * b.z - b.y * a.z, a.z * b.x - b.z * a.x, a.x * b.y - b.x * a.y⟩

/-- GLM `inversesqrt`: `1 / sqrt(x)`. -/
def inversesqrt (sqrt : K → K) (x : K) : K := 1 / sqrt x

/-- GLM `normalize`: `v * inversesqrt(dot(v, v))`. -/
def normalize (sqrt : K → K) (v : vec3 K) : vec3 K :=
  ⟨v.x * inversesqrt sqrt (dot v v), v.y * inversesqrt sqrt (dot v v),
   v.z * inversesqrt sqrt (dot v v)⟩

/-- GLM `clamp(x, minVal, maxVal) = min(max(x, minVal), maxVal)`. -/
def clamp (x minVal maxVal : K) : K := min (max x minVal) maxVal

/-- GLM `radians`: degrees to radians, for the value `pi` of the library constant. -/
def radians (pi : K) (degrees : K) : K := degrees * (pi / 180)

/-- GLM `half_pi`, for the value `pi` of the library constant. -/
def half_pi (pi : K) : K := pi / 2

/-- GLM `rotate(angle, v)`: the rotation matrix built by `rotate(mat4(1), angle, v)`. -/
def rotate (cos sin sqrt : K → K) (angle : K) (v : vec3 K) : mat4 K :=
  let c := cos angle
  let s := sin angle
  let axis := normalize sqrt v
  let temp : vec3 K := ⟨(1 - c) * axis.x, (1 - c) * axis.y, (1 - c) * axis.z⟩
  { c0 := ⟨c + temp.x * axis.x, temp.x * axis.y + s * axis.z, temp.x * axis.z - s * axis.y, 0⟩
    c1 := ⟨temp.y * axis.x - s * axis.z, c + temp.y * axis.y, temp.y * axis.z + s * axis.x, 0⟩
    c2 := ⟨temp.z * axis.x + s * axis.y, temp.z * axis.y - s * axis.x, c + temp.z * axis.z, 0⟩
    c3 := ⟨0, 0, 0, 1⟩ }

/-- Modelled from the spec: `glmutils.h` is not among the sources; `rotateY(a)` is the
rotation by the angle `a` about the Y axis (the spec writes it `rotate(angle, axisY)`). -/
def rotateY (cos sin sqrt : K → K) (angle : K) : mat4 K :=
  rotate cos sin sqrt angle ⟨0, 1, 0⟩

/-- GLM `mat4 * vec4`. -/
def mulVec (m : mat4 K) (v : vec4 K) : vec4 K :=
  ⟨(m.c0.x * v.x + m.c1.x * v.y) + (m.c2.x * v.z + m.c3.x * v.w),
   (m.c0.y * v.x + m.c1.y * v.y) + (m.c2.y * v.z + m.c3.y * v.w),
   (m.c0.z * v.x + m.c1.z * v.y) + (m.c2.z * v.z + m.c3.z * v.w),
   (m.c0.w * v.x + m.c1.w * v.y) + (m.c2.w * v.z + m.c3.w * v.w)⟩

/-- GLM `vec3 + vec3`. -/
def vec3.add (a b : vec3 K) : vec3 K := ⟨a.x + b.x, a.y + b.y, a.z + b.z⟩

/-- GLM `vec3 - vec3`. -/
def vec3.sub (a b : vec3 K) : vec3 K := ⟨a.x - b.x, a.y - b.y, a.z - b.z⟩

/-- GLM `vec3 * scalar`. -/
def vec3.scale (a : vec3 K) (s : K) : vec3 K := ⟨a.x * s, a.y * s, a.z * s⟩

/-- The conversion `vec3(vec4)`: drops `w`. -/
def vec4.xyz (v : vec4 K) : vec3 K := ⟨v.x, v.y, v.z⟩

/-- C `trunc`: rounding towards zero. -/
def trunc [FloorRing K] (x : K) : Int := if 0 ≤ x then ⌊x⌋ else ⌈x⌉

/-- C `fmod(x, y)`: `x - n*y` where `n` is `x/y` with its fractional part truncated, so that
the result has the sign of `x` and magnitude less than that of `y` (meaningful for `y ≠ 0`). -/
def fmod [FloorRing K] (x y : K) : K := x - (trunc (x / y) : K) * y

end Library

/-! ### Globals and input handling -/

/-- The global variables used for control, together with the function-local statics of
`cursor_input_callback` (`lastCursorPosition` is `none` until the first call runs its
initialiser). -/
structure Globals (K : Type) where
  currentTime : K
  camForward : vec3 K
  camPosition : vec3 K
  rainHeight : K
  rainAmount : K
  rainVelocity : K
  rainLength : K
  linearSpeed : K
  rotationGain : K
  lastCursorPosition : Option (vec2 K)
  rotationAroundVertical : K
  rotationAroundLateral : K

section Input

variable {K : Type} [LinearOrderedField K]

/-- The initial values of the globals and statics, as declared in the source. -/
def initGlobals : Globals K :=
  { currentTime := 0
    camForward := ⟨0, 0, -1⟩
    camPosition := ⟨0, 16 / 10, 0⟩
    rainHeight := 10
    rainAmount := 400
    rainVelocity := 5
    rainLength := 1 / 10
    linearSpeed := 15 / 100
    rotationGain := 30
    lastCursorPosition := none
    rotationAroundVertical := 0
    rotationAroundLateral := 0 }

/-- The function `cursorInRange`; the two reference parameters `x`, `y` are returned. -/
def cursorInRange (screenX screenY : K) (screenW screenH : Int) (min max : K) : K × K :=
  let sum := max - min
  let xInRange := screenX / (screenW : K) * sum - sum / 2
  let yInRange := screenY / (screenH : K) * sum - sum / 2
  (xInRange, -yInRange)

/-- The lateral axis `glm::cross(camForward, glm::vec3(0, 1, 0))` that a call of
`cursor_input_callback` passing the threshold uses, for the vertical rotation `rotV` reached
in that call. -/
def lateralAxisAt (cos sin sqrt : K → K) (rotV : K) : vec3 K :=
  cross (mulVec (rotateY cos sin sqrt rotV) ⟨0, 0, -1, 0⟩).xyz ⟨0, 1, 0⟩

/-- The function `cursor_input_callback`. `screenW`, `screenH` are what `glfwGetWindowSize`
answers, `pi` is the value of the GLM constant. -/
def cursor_input_callback (cos sin sqrt : K → K) (pi : K) (screenW screenH : Int)
    (posX posY : K) (st : Globals K) : Globals K :=
  let c := cursorInRange posX posY screenW screenH (-1) 1
  let cursorPosition : vec2 K := ⟨c.1, c.2⟩
  let lastCursorPosition := st.lastCursorPosition.getD cursorPosition
  let positionDiff : vec2 K :=
    ⟨cursorPosition.x - lastCursorPosition.x, cursorPosition.y - lastCursorPosition.y⟩
  if dot2 positionDiff positionDiff > 1 / 100000 then
    let camForward : vec3 K := ⟨0, 0, -1⟩
    let rotationAroundVertical :=
      st.rotationAroundVertical + radians pi (-positionDiff.x * st.rotationGain)
    let camForward :=
      (mulVec (rotateY cos sin sqrt rotationAroundVertical)
        ⟨camForward.x, camForward.y, camForward.z, 0⟩).xyz
    let rotationAroundLateral :=
      st.rotationAroundLateral + radians pi (positionDiff.y * st.rotationGain)
    let rotationAroundLateral :=
      clamp rotationAroundLateral (-half_pi pi * (9 / 10)) (half_pi pi * (9 / 10))
    let lateralAxis := cross camForward ⟨0, 1, 0⟩
    let camForward :=
      (mulVec (rotate cos sin sqrt rotationAroundLateral lateralAxis)
        ⟨camForward.x, camForward.y, camForward.z, 0⟩).xyz
    { st with
      camForward := camForward
      rotationAroundVertical := rotationAroundVertical
      rotationAroundLateral := rotationAroundLateral
      lastCursorPosition := some cursorPosition }
  else
    { st with lastCursorPosition := some lastCursorPosition }

/-- The local `positionDiff` of `cursor_input_callback`: the cursor position change since
the last call that rotated the camera (zero at the first call). -/
def positionDiff (screenW screenH : Int) (posX posY : K) (st : Globals K) : vec2 K :=
  let c := cursorInRange posX posY screenW screenH (-1) 1
  let cursorPosition : vec2 K := ⟨c.1, c.2⟩
  let lastCursorPosition := st.lastCursorPosition.getD cursorPosition
  ⟨cursorPosition.x - lastCursorPosition.x, cursorPosition.y - lastCursorPosition.y⟩

/-- One cursor event: the answer of `glfwGetWindowSize` and the reported position. -/
structure CursorEvent (K : Type) where
  screenW : Int
  screenH : Int
  posX : K
  posY : K

/-- The globals after the cursor events `evs`, delivered in order. -/
def runCursor (cos sin sqrt : K → K) (pi : K) (evs : List (CursorEvent K)) (st : Globals K) :
    Globals K :=
  evs.foldl (fun st e => cursor_input_callback cos sin sqrt pi e.screenW e.screenH e.posX e.posY st)
    st

/-- The argument `glm::vec3(camForward.x, 0, camForward.z)` that `processInput` normalizes. -/
def forwardInXZ_arg (st : Globals K) : vec3 K := ⟨st.camForward.x, 0, st.camForward.z⟩

/-- The keys `processInput` polls with `glfwGetKey`: `true` when the key is pressed. -/
structure Keys where
  W : Bool
  S : Bool
  A : Bool
  D : Bool
  UP : Bool
  DOWN : Bool
deriving DecidableEq, Repr

/-- The function `processInput`, acting on the globals (the escape key only sets the close
flag of the window, which is not one of the globals). -/
def processInput (sqrt : K → K) (keys : Keys) (st : Globals K) : Globals K :=
  let forwardInXZ := normalize sqrt (forwardInXZ_arg st)
  let camPosition := st.camPosition
  let camPosition :=
    if keys.W then camPosition.add (forwardInXZ.scale st.linearSpeed) else camPosition
  let camPosition :=
    if keys.S then camPosition.sub (forwardInXZ.scale st.linearSpeed) else camPosition
  let camPosition :=
    if keys.A then camPosition.sub ((cross forwardInXZ ⟨0, 1, 0⟩).scale st.linearSpeed)
    else camPosition
  let camPosition :=
    if keys.D then camPosition.add ((cross forwardInXZ ⟨0, 1, 0⟩).scale st.linearSpeed)
    else camPosition
  let rainVelocity := st.rainVelocity
  let rainVelocity := if keys.UP then rainVelocity + 1 / 100 else rainVelocity
  let rainVelocity := if keys.DOWN then rainVelocity - 1 / 100 else rainVelocity
  { st with camPosition := camPosition, rainVelocity := rainVelocity }

/-- The value `newY` computed for one rain line in `drawRainLines`. -/
def newY [FloorRing K] (st : Globals K) (offset : vec3 K) : K :=
  st.rainHeight - fmod (offset.y + st.currentTime * st.rainVelocity) (st.rainHeight + st.rainLength)

/-- The function `drawRainLines`: the translation `(x, y, z)` of the model matrix set on
each line before it is drawn, in the order of `lines` (each given by its offset). -/
def drawRainLines [FloorRing K] (st : Globals K) (lines : List (vec3 K)) : List (vec3 K) :=
  lines.map (fun offset =>
    ⟨offset.x + st.camPosition.x, newY st offset, offset.z + st.camPosition.z⟩)

end Input

end Weather

/-! ## Part 3: the shader selection of the voronoi demo and the `Line` class of the weather demo -/

namespace Voronoi

/-- The constant `GLFW_KEY_1` of the windowing library. -/
def GLFW_KEY_1 : Int := 49

/-- The constant `GLFW_KEY_2` of the windowing library. -/
def GLFW_KEY_2 : Int := 50

/-- The constant `GLFW_KEY_3` of the windowing library. -/
def GLFW_KEY_3 : Int := 51

/-- The global variables of the voronoi demo. The pointer `activeShader` is `none` while
it is null and `some i` when it is `&shaderPrograms[i]`. -/
structure Globals (K : Type) where
  sceneObjects : List (SceneObject K)
  shaderPrograms : List Shader
  activeShader : Option Nat

section Keys

variable {K : Type}

/-- The globals before `main` runs: two empty vectors and a null pointer. -/
def startGlobals : Globals K :=
  { sceneObjects := [], shaderPrograms := [], activeShader := none }

/-- The initialisation in `main`: three `shaderPrograms.push_back(Shader(..))`, whose
program identifiers are `id0`, `id1`, `id2`, then `activeShader = &shaderPrograms[0]`. -/
def mainInit (id0 id1 id2 : Nat) (g : Globals K) : Globals K :=
  let shaderPrograms := g.shaderPrograms ++ [⟨id0⟩]
  let shaderPrograms := shaderPrograms ++ [⟨id1⟩]
  let shaderPrograms := shaderPrograms ++ [⟨id2⟩]
  { g with shaderPrograms := shaderPrograms, activeShader := some 0 }

/-- The function `key_input_callback(window, button, other, action, mods)`. -/
def key_input_callback (button other action mods : Int) (g : Globals K) : Globals K :=
  if button = GLFW_KEY_1 ∧ action = GLFW_PRESS then
    { g with activeShader := some 0 }
  else if button = GLFW_KEY_2 ∧ action = GLFW_PRESS then
    { g with activeShader := some 1 }
  else if button = GLFW_KEY_3 ∧ action = GLFW_PRESS then
    { g with activeShader := some 2 }
  else g

/-- One key event as the windowing library reports it. -/
structure KeyEvent where
  button : Int
  other : Int
  action : Int
  mods : Int
deriving DecidableEq, Repr

/-- The globals after the key events `evs`, delivered in order. -/
def runKeys (evs : List KeyEvent) (g : Globals K) : Globals K :=
  evs.foldl (fun g e => key_input_callback e.button e.other e.action e.mods g) g

end Keys

end Voronoi

namespace Weather

/-- The primitive mode `GL_LINES`. -/
def GL_LINES : Nat := 1

/-- The size in bytes of a `float` (and of a `GLfloat`). -/
def sizeof_float : Nat := 4

/-- One call of `glBufferData`: the buffer bound to the target, the byte size passed, and
the array the data pointer points at. -/
structure BufferData (K : Type) where
  buffer : Nat
  size : Nat
  data : List K
deriving DecidableEq, Repr

/-- One submitted draw of the weather demo: the program, uniforms and vertex array in force
when `glDrawArrays` was called, and its arguments. -/
structure LineDraw (K : Type) where
  program : Int
  MVP : mat4 K
  color : vec3 K
  vao : Nat
  mode : Nat
  first : Nat
  count : Nat
deriving DecidableEq, Repr

/-- The part of the driver state the `Line` class touches. -/
structure Driver (K : Type) where
  program : Int
  MVP : mat4 K
  color : vec3 K
  boundVAO : Nat
  boundBuffer : Nat
  uploads : List (BufferData K)
  draws : List (LineDraw K)

/-- The class `Line`. -/
structure Line (K : Type) where
  shaderProgram : Int
  VBO : Nat
  VAO : Nat
  vertices : List K
  startPoint : vec3 K
  endPoint : vec3 K
  MVP : mat4 K
  lineColor : vec3 K
  offSet : vec3 K

/-- What the outside world answers during one run of the `Line` constructor: the handles
from `glCreateProgram`, `glGenVertexArrays` and `glGenBuffers`, and the value of
`sizeof(std::vector<float>)` on the platform the program is compiled for. -/
structure LineEnv where
  newProgram : Int
  newVAO : Nat
  newVBO : Nat
  sizeof_vector : Nat
deriving DecidableEq, Repr

section LineClass

variable {K : Type} [LinearOrderedField K]

/-- GLM `mat4(1.0)`: the identity matrix. -/
def mat4.one : mat4 K :=
  { c0 := ⟨1, 0, 0, 0⟩, c1 := ⟨0, 1, 0, 0⟩, c2 := ⟨0, 0, 1, 0⟩, c3 := ⟨0, 0, 0, 1⟩ }

/-- The driver call `glUseProgram`. -/
def glUseProgram (id : Int) (gl : Driver K) : Driver K := { gl with program := id }

/-- The driver call `glUniformMatrix4fv` on the location of the uniform `MVP`. -/
def glUniformMatrix4fv_MVP (m : mat4 K) (gl : Driver K) : Driver K := { gl with MVP := m }

/-- The driver call `glUniform3fv` on the location of the uniform `color`. -/
def glUniform3fv_color (c : vec3 K) (gl : Driver K) : Driver K := { gl with color := c }

/-- The driver call `glBindVertexArray`. -/
def glBindVertexArray (vao : Nat) (gl : Driver K) : Driver K := { gl with boundVAO := vao }

/-- The driver call `glBindBuffer(GL_ARRAY_BUFFER, .)`. -/
def glBindBuffer (buffer : Nat) (gl : Driver K) : Driver K := { gl with boundBuffer := buffer }

/-- The driver call `glBufferData(GL_ARRAY_BUFFER, size, data, GL_STATIC_DRAW)`: the driver
copies `size` bytes starting at `data` into the bound buffer. -/
def glBufferData (size : Nat) (data : List K) (gl : Driver K) : Driver K :=
  { gl with uploads := gl.uploads ++ [{ buffer := gl.boundBuffer, size := size, data := data }] }

/-- The driver call `glDrawArrays`: submits one draw with the state currently bound. -/
def glDrawArrays (mode first count : Nat) (gl : Driver K) : Driver K :=
  { gl with draws := gl.draws ++
      [{ program := gl.program, MVP := gl.MVP, color := gl.color, vao := gl.boundVAO,
         mode := mode, first := first, count := count }] }

/-- An upload reads past the end of its source array when the byte size passed is larger
than the array (`data.size()` floats of `sizeof(float)` bytes each). -/
def BufferData.readsPastEnd (u : BufferData K) : Bool :=
  decide (u.data.length * sizeof_float < u.size)

/-- The constructor `Line(vec3 start, vec3 end, vec3 offset)`: the object it builds and its
effect on the driver. -/
def Line.new (env : LineEnv) (start end_ offset : vec3 K) (gl : Driver K) : Line K × Driver K :=
  let startPoint := start
  let endPoint := end_
  let offSet := offset
  let lineColor : vec3 K := ⟨1, 1, 1⟩
  let shaderProgram := env.newProgram
  let vertices : List K := [start.x, start.y, start.z, end_.x, end_.y, end_.z]
  let VAO := env.newVAO
  let VBO := env.newVBO
  let gl := glBindVertexArray VAO gl
  let gl := glBindBuffer VBO gl
  let gl := glBufferData (env.sizeof_vector * vertices.length) vertices gl
  let gl := glBindBuffer 0 gl
  let gl := glBindVertexArray 0 gl
  ({ shaderProgram := shaderProgram, VBO := VBO, VAO := VAO, vertices := vertices,
     startPoint := startPoint, endPoint := endPoint, MVP := mat4.one, lineColor := lineColor,
     offSet := offSet }, gl)

/-- The method `Line::setMVP`. -/
def Line.setMVP (line : Line K) (mvp : mat4 K) : Line K := { line with MVP := mvp }

/-- The method `Line::setColor`. -/
def Line.setColor (line : Line K) (color : vec3 K) : Line K := { line with lineColor := color }

/-- The method `Line::getOffset`. -/
def Line.getOffset (line : Line K) : vec3 K := line.offSet

/-- The method `Line::draw`: the value it returns and its effect on the driver. -/
def Line.draw (line : Line K) (gl : Driver K) : Int × Driver K :=
  let gl := glUseProgram line.shaderProgram gl
  let gl := glUniformMatrix4fv_MVP line.MVP gl
  let gl := glUniform3fv_color line.lineColor gl
  let gl := glBindVertexArray line.VAO gl
  let gl := glDrawArrays GL_LINES 0 2 gl
  (0, gl)

/-- The function `createArrayBuffer` of the weather demo: the handle it returns (`newVBO` is
what `glGenBuffers` hands out) and its effect on the driver. -/
def createArrayBuffer (newVBO : Nat) (array : List K) (gl : Driver K) : Nat × Driver K :=
  let VBO := newVBO
  let gl := glBindBuffer VBO gl
  let gl := glBufferData (array.length * sizeof_float) array gl
  (VBO, gl)

/-- The driver state before any call. -/
def Driver.init : Driver K :=
  { program := 0, MVP := mat4.one, color := ⟨0, 0, 0⟩, boundVAO := 0, boundBuffer := 0,
    uploads := [], draws := [] }

end LineClass

end Weather

/-! ## Theorems -/

namespace Voronoi

section MeshLemmas

variable {α : Type}

/-- A loop of `push_back`s is the concatenation of the pushed chunks. -/
theorem foldl_append_chunks (f : Nat → List α) (l : List Nat) (init : List α) :
    l.foldl (fun acc i => acc ++ f i) init = init ++ l.flatMap f := by
  induction l generalizing init with
  | nil => simp
  | cons a l ih => simp [List.foldl_cons, ih, List.flatMap_cons, List.append_assoc]

/-- Length of a concatenation of chunks of constant length. -/
theorem length_flatMap_range (f : Nat → List α) (c : Nat) (hf : ∀ i, (f i).length = c)
    (n : Nat) : ((List.range n).flatMap f).length = c * n := by
  induction n with
  | zero => simp
  | succ n ih => rw [List.range_succ, List.flatMap_append, List.length_append, ih]; simp [hf]; ring

/-- Entry `j` of chunk `i` in a concatenation of chunks of constant length `c`. -/
theorem getElem?_flatMap_range (f : Nat → List α) (c : Nat) (hf : ∀ i, (f i).length = c)
    (n i j : Nat) (hi : i < n) (hj : j < c) :
    ((List.range n).flatMap f)[c * i + j]? = (f i)[j]? := by
  induction n with
  | zero => omega
  | succ n ih =>
    rw [List.range_succ, List.flatMap_append]
    by_cases h : i < n
    · rw [List.getElem?_append_left, ih h]
      rw [length_flatMap_range f c hf]
      calc c * i + j < c * i + c := by omega
        _ = c * (i + 1) := by ring
        _ ≤ c * n := Nat.mul_le_mul_left c h
    · have hin : i = n := by omega
      subst hin
      rw [List.getElem?_append_right (by rw [length_flatMap_range f c hf]; omega),
        length_flatMap_range f c hf]
      simp

theorem vertexAt_isSome (l : List α) (n k : Nat) (hl : l.length = 3 * n) (hk : k < n) :
    (vertexAt l k).isSome = true := by
  have h0 : 3 * k < l.length := by omega
  have h1 : 3 * k + 1 < l.length := by omega
  have h2 : 3 * k + 2 < l.length := by omega
  simp [vertexAt, List.getElem?_eq_getElem, h0, h1, h2]

theorem vertexAt_eq_none (l : List α) (n : Nat) (hl : l.length = 3 * n) :
    vertexAt l n = none := by
  have h0 : l[3 * n]? = none := by
    rw [List.getElem?_eq_none_iff, hl]
  simp [vertexAt, h0]

end MeshLemmas

section MeshFacts

variable {K : Type} [Field K]

theorem coneTriangle_length (cos sin : K → K) (i : Nat) : (coneTriangle cos sin i).length = 9 :=
  rfl

theorem conePositions_eq (cos sin : K → K) :
    conePositions cos sin = (List.range triangleCount).flatMap (coneTriangle cos sin) := by
  simp [conePositions, foldl_append_chunks]

theorem conePositions_length (cos sin : K → K) : (conePositions cos sin).length = 3240 := by
  rw [conePositions_eq, length_flatMap_range _ 9 (coneTriangle_length cos sin)]
  rfl

/-- Float `j < 9` of triangle `i < 360` of the cone buffer. -/
theorem conePositions_getElem? (cos sin : K → K) (i j : Nat) (hi : i < triangleCount)
    (hj : j < 9) : (conePositions cos sin)[9 * i + j]? = (coneTriangle cos sin i)[j]? := by
  rw [conePositions_eq]
  exact getElem?_flatMap_range _ 9 (coneTriangle_length cos sin) _ i j hi hj

/-- Vertex `v < 3` of triangle `i < 360` of the cone buffer. -/
theorem vertexAt_conePositions (cos sin : K → K) (i v : Nat) (hi : i < triangleCount)
    (hv : v < 3) :
    vertexAt (conePositions cos sin) (3 * i + v) = vertexAt (coneTriangle cos sin i) v := by
  have e0 : 3 * (3 * i + v) = 9 * i + 3 * v := by ring
  unfold vertexAt
  rw [e0, Nat.add_assoc (9 * i), Nat.add_assoc (9 * i), conePositions_getElem? cos sin i _ hi (by omega),
    conePositions_getElem? cos sin i _ hi (by omega),
    conePositions_getElem? cos sin i _ hi (by omega)]

theorem instantiateCone_positions (cos sin : K → K) (newVAO : Nat) (r g b offsetX offsetY : K) :
    (instantiateCone cos sin newVAO r g b offsetX offsetY).2 = conePositions cos sin := by
  simp only [instantiateCone]

theorem instantiateCone_vertexCount (cos sin : K → K) (newVAO : Nat)
    (r g b offsetX offsetY : K) :
    (instantiateCone cos sin newVAO r g b offsetX offsetY).1.vertexCount
      = (conePositions cos sin).length / 3 % 2 ^ 32 := by
  simp only [instantiateCone]

/-- The three vertices of triangle `i` of the cone buffer: apex, first and second rim
vertex. -/
theorem cone_triangle_vertices (cos sin : K → K) (i : Nat) (hi : i < triangleCount) :
    vertexAt (conePositions cos sin) (3 * i) = some (0, 0, 1) ∧
    vertexAt (conePositions cos sin) (3 * i + 1)
      = some (cos ((i : K) * angleInterval) * 3, sin ((i : K) * angleInterval) * 3, 0) ∧
    vertexAt (conePositions cos sin) (3 * i + 2)
      = some (cos (((i + 1 : Nat) : K) * angleInterval) * 3,
              sin (((i + 1 : Nat) : K) * angleInterval) * 3, 0) := by
  have h0 := vertexAt_conePositions cos sin i 0 hi (by decide)
  have h1 := vertexAt_conePositions cos sin i 1 hi (by decide)
  have h2 := vertexAt_conePositions cos sin i 2 hi (by decide)
  simp only [Nat.add_zero] at h0
  rw [h0, h1, h2]
  exact ⟨rfl, rfl, rfl⟩

end MeshFacts

/-- C1: the cone mesh built by `instantiateCone` has 3 * 360 = 1080 vertex positions of
three components each (3240 floats, every vertex index below 1080 reads three floats, the
stored `vertexCount` is 1080), and the first vertex of every triangle is the apex (0, 0, 1). -/
theorem instantiateCone_shape {K : Type} [Field K] (cos sin : K → K) (newVAO : Nat)
    (r g b offsetX offsetY : K) :
    (instantiateCone cos sin newVAO r g b offsetX offsetY).2.length = 3240 ∧
    (instantiateCone cos sin newVAO r g b offsetX offsetY).2.length = 3 * (3 * triangleCount) ∧
    (instantiateCone cos sin newVAO r g b offsetX offsetY).1.vertexCount = 1080 ∧
    (∀ k : Fin 1080,
      (vertexAt (instantiateCone cos sin newVAO r g b offsetX offsetY).2 k.val).isSome = true) ∧
    (vertexAt (instantiateCone cos sin newVAO r g b offsetX offsetY).2 1080 = none) ∧
    ∀ i : Fin triangleCount,
      vertexAt (instantiateCone cos sin newVAO r g b offsetX offsetY).2 (3 * i.val)
        = some (0, 0, 1) := by
  have hlen := conePositions_length cos sin
  rw [instantiateCone_vertexCount, instantiateCone_positions, hlen]
  refine ⟨rfl, by rw [triangleCount], by norm_num, ?_, ?_, ?_⟩
  · intro k
    exact vertexAt_isSome _ 1080 k.val (by rw [hlen]) k.isLt
  · exact vertexAt_eq_none _ 1080 (by rw [hlen])
  · intro i
    exact (cone_triangle_vertices cos sin i.val i.isLt).1

/-- C3: in the cone mesh over real arithmetic, both rim vertices of every triangle `i` lie in
the plane z = 0 at distance exactly 3 from the origin (x^2 + y^2 = 9), the first at the angle
`i * angleInterval` and the second at `(i + 1) * angleInterval`, with
`angleInterval = 2 * PI / 360`. -/
theorem cone_rim_on_circle (i : Fin triangleCount) :
    (angleInterval : ℝ) = 2 * PI / 360 ∧
    vertexAt (conePositions Real.cos Real.sin) (3 * i.val + 1)
      = some (Real.cos ((i.val : ℝ) * angleInterval) * 3,
              Real.sin ((i.val : ℝ) * angleInterval) * 3, 0) ∧
    vertexAt (conePositions Real.cos Real.sin) (3 * i.val + 2)
      = some (Real.cos (((i.val : ℝ) + 1) * angleInterval) * 3,
              Real.sin (((i.val : ℝ) + 1) * angleInterval) * 3, 0) ∧
    (Real.cos ((i.val : ℝ) * angleInterval) * 3) ^ 2
      + (Real.sin ((i.val : ℝ) * angleInterval) * 3) ^ 2 = 9 ∧
    (Real.cos (((i.val : ℝ) + 1) * angleInterval) * 3) ^ 2
      + (Real.sin (((i.val : ℝ) + 1) * angleInterval) * 3) ^ 2 = 9 := by
  obtain ⟨-, h1, h2⟩ := cone_triangle_vertices Real.cos Real.sin i.val i.isLt
  have hc : ∀ t : ℝ, (Real.cos t * 3) ^ 2 + (Real.sin t * 3) ^ 2 = 9 := by
    intro t
    nlinarith [Real.cos_sq_add_sin_sq t]
  refine ⟨?_, h1, ?_, hc _, hc _⟩
  · simp [angleInterval, triangleCount]
  · rw [h2]
    push_cast
    rfl

/-- The code constant `PI` is within 6.5e-7 of the real number pi. -/
theorem abs_PI_sub_pi_lt : |(PI : ℝ) - Real.pi| < 65 / 100000000 := by
  have h1 := Real.pi_gt_d6
  have h2 := Real.pi_lt_d6
  rw [abs_lt, PI]
  constructor <;> norm_num at h1 h2 ⊢ <;> linarith

/-- At the angle `2 * PI` reached by the last triangle, the cosine and sine are within
`1e-5 / 3` of those at angle 0. -/
theorem cos_sin_two_PI :
    |Real.cos (2 * PI) - 1| ≤ 1 / 300000 ∧ |Real.sin (2 * PI)| ≤ 1 / 300000 := by
  have hd := abs_PI_sub_pi_lt
  have hd2 : |2 * (PI : ℝ) - 2 * Real.pi| < 13 / 10000000 := by
    have : 2 * (PI : ℝ) - 2 * Real.pi = 2 * ((PI : ℝ) - Real.pi) := by ring
    rw [this, abs_mul, abs_two]
    linarith
  have hc : Real.cos (2 * PI) = Real.cos (2 * (PI : ℝ) - 2 * Real.pi) := by
    rw [Real.cos_sub_two_pi]
  have hs : Real.sin (2 * PI) = Real.sin (2 * (PI : ℝ) - 2 * Real.pi) := by
    rw [Real.sin_sub_two_pi]
  rw [hc, hs]
  constructor
  · obtain ⟨hlo, hhi⟩ := abs_lt.mp hd2
    have h1 := Real.one_sub_sq_div_two_le_cos (x := 2 * (PI : ℝ) - 2 * Real.pi)
    have h2 := Real.cos_le_one (2 * (PI : ℝ) - 2 * Real.pi)
    have h3 : (2 * (PI : ℝ) - 2 * Real.pi) ^ 2 ≤ 1 / 150000 := by nlinarith
    rw [abs_le]
    constructor <;> linarith
  · have h1 : |Real.sin (2 * (PI : ℝ) - 2 * Real.pi)| ≤ |2 * (PI : ℝ) - 2 * Real.pi| :=
      Real.abs_sin_le_abs
    linarith

/-- C2: in the cone mesh over real arithmetic (with the code constant `PI`), the second rim
vertex of triangle `i` equals the first rim vertex of triangle `(i + 1) mod 360` in every
component within 1e-5; in particular the last triangle closes the loop onto the first rim
vertex of triangle 0 within 1e-5. -/
theorem cone_shared_edge (i : Fin triangleCount) :
    ∃ a b : ℝ × ℝ × ℝ,
      vertexAt (conePositions Real.cos Real.sin) (3 * i.val + 2) = some a ∧
      vertexAt (conePositions Real.cos Real.sin) (3 * ((i.val + 1) % triangleCount) + 1)
        = some b ∧
      |a.1 - b.1| ≤ 1 / 100000 ∧ |a.2.1 - b.2.1| ≤ 1 / 100000 ∧
      |a.2.2 - b.2.2| ≤ 1 / 100000 := by
  obtain ⟨-, -, h2⟩ := cone_triangle_vertices Real.cos Real.sin i.val i.isLt
  by_cases hi : i.val + 1 < triangleCount
  · obtain ⟨-, h1, -⟩ := cone_triangle_vertices Real.cos Real.sin (i.val + 1) hi
    rw [Nat.mod_eq_of_lt hi]
    exact ⟨_, _, h2, h1, by simp, by simp, by simp⟩
  · have hlast : i.val + 1 = triangleCount := by have := i.isLt; omega
    obtain ⟨-, h1, -⟩ := cone_triangle_vertices Real.cos Real.sin 0 (by decide)
    rw [hlast, Nat.mod_self]
    rw [hlast] at h2
    have hang : ((triangleCount : Nat) : ℝ) * angleInterval = 2 * PI := by
      simp [angleInterval, triangleCount]
      ring
    have hzero : ((0 : Nat) : ℝ) * angleInterval = 0 := by simp
    rw [hang] at h2
    rw [hzero, Real.cos_zero, Real.sin_zero] at h1
    obtain ⟨hc, hs⟩ := cos_sin_two_PI
    refine ⟨_, _, h2, h1, ?_, ?_, by simp⟩
    · show |Real.cos (2 * PI) * 3 - 1 * 3| ≤ 1 / 100000
      have : Real.cos (2 * PI) * 3 - 1 * 3 = 3 * (Real.cos (2 * PI) - 1) := by ring
      rw [this, abs_mul, abs_of_pos (by norm_num : (0 : ℝ) < 3)]
      linarith
    · show |Real.sin (2 * PI) * 3 - 0 * 3| ≤ 1 / 100000
      have : Real.sin (2 * PI) * 3 - 0 * 3 = 3 * Real.sin (2 * PI) := by ring
      rw [this, abs_mul, abs_of_pos (by norm_num : (0 : ℝ) < 3)]
      linarith

section StoreFacts

variable {K : Type}

theorem appendAll_eq (store objs : List (SceneObject K)) :
    appendAll store objs = store ++ objs := by
  induction objs generalizing store with
  | nil => simp [appendAll]
  | cons o objs ih =>
    have h := ih (store ++ [o])
    simp only [appendAll, List.foldl_cons] at h ⊢
    rw [h]
    simp

/-- The draws submitted by the loop over the scene objects, from any driver state. -/
theorem foldl_draw_draws (activeShader : Nat) (l : List (SceneObject K)) (gl : GLState K) :
    (l.foldl (fun gl s => draw activeShader s gl) gl).draws
      = gl.draws ++ l.map (drawOf activeShader) := by
  induction l generalizing gl with
  | nil => simp
  | cons s l ih =>
    rw [List.foldl_cons, ih]
    simp [draw, glDrawArrays, glBindVertexArray, glUniform3f_aColor, glUniform2f_offset,
      glUseProgram, drawOf]

/-- A left-button press appends one cone carrying the offset computed from the pointer. -/
theorem button_press_last [Field K] (cos sin : K → K) (env : ClickEnv K)
    (sceneObjects : List (SceneObject K)) :
    (button_input_callback cos sin env GLFW_MOUSE_BUTTON_LEFT GLFW_PRESS
        sceneObjects).getLast?.map (fun s => (s.x, s.y))
      = some (env.mXpos * 2 / (env.VP_sizeX : K) - 1,
              -(env.mYpos * 2 / (env.VP_sizeY : K) - 1)) := by
  simp [button_input_callback, instantiateCone]

end StoreFacts

/-- C5: a left-button press with the pointer at `(mXpos, mYpos)` in a window of size
`W x H` (both positive) appends a cone whose offset is `x = 2*mXpos/W - 1`,
`y = -(2*mYpos/H - 1)`; at the top-left corner that is (-1, 1), at the bottom-right corner
(1, -1), and at the centre (0, 0). -/
theorem button_press_offset {K : Type} [LinearOrderedField K] (cos sin : K → K)
    (env : ClickEnv K) (sceneObjects : List (SceneObject K))
    (hW : 0 < env.VP_sizeX) (hH : 0 < env.VP_sizeY) :
    ((button_input_callback cos sin env GLFW_MOUSE_BUTTON_LEFT GLFW_PRESS
        sceneObjects).getLast?.map (fun s => (s.x, s.y))
      = some (2 * env.mXpos / (env.VP_sizeX : K) - 1,
              -(2 * env.mYpos / (env.VP_sizeY : K) - 1))) ∧
    ((button_input_callback cos sin { env with mXpos := 0, mYpos := 0 }
        GLFW_MOUSE_BUTTON_LEFT GLFW_PRESS sceneObjects).getLast?.map (fun s => (s.x, s.y))
      = some (-1, 1)) ∧
    ((button_input_callback cos sin
        { env with mXpos := (env.VP_sizeX : K), mYpos := (env.VP_sizeY : K) }
        GLFW_MOUSE_BUTTON_LEFT GLFW_PRESS sceneObjects).getLast?.map (fun s => (s.x, s.y))
      = some (1, -1)) ∧
    ((button_input_callback cos sin
        { env with mXpos := (env.VP_sizeX : K) / 2, mYpos := (env.VP_sizeY : K) / 2 }
        GLFW_MOUSE_BUTTON_LEFT GLFW_PRESS sceneObjects).getLast?.map (fun s => (s.x, s.y))
      = some (0, 0)) := by
  have hW0 : (env.VP_sizeX : K) ≠ 0 := by
    have : (0 : K) < (env.VP_sizeX : K) := by exact_mod_cast hW
    exact ne_of_gt this
  have hH0 : (env.VP_sizeY : K) ≠ 0 := by
    have : (0 : K) < (env.VP_sizeY : K) := by exact_mod_cast hH
    exact ne_of_gt this
  simp only [button_press_last, Option.some.injEq, Prod.mk.injEq]
  refine ⟨⟨?_, ?_⟩, ⟨?_, ?_⟩, ⟨?_, ?_⟩, ⟨?_, ?_⟩⟩
  · ring
  · ring
  · simp
  · simp
  · field_simp; ring
  · field_simp; ring
  · field_simp
  · field_simp

/-- Witness for C5: a 1200 x 900 window with the pointer at (300, 225). -/
theorem button_press_offset_witness :
    (0 : Int) < 1200 ∧ (0 : Int) < 900 ∧
    ((button_input_callback (fun t : ℚ => t) (fun t : ℚ => t)
        ⟨300, 225, 1200, 900, 1, 2, 3, 2147483647, 7⟩ GLFW_MOUSE_BUTTON_LEFT GLFW_PRESS
        []).getLast?.map (fun s => (s.x, s.y))
      = some (2 * 300 / ((1200 : Int) : ℚ) - 1, -(2 * 225 / ((900 : Int) : ℚ) - 1))) :=
  ⟨by decide, by decide,
    (button_press_offset (fun t : ℚ => t) (fun t : ℚ => t)
      ⟨300, 225, 1200, 900, 1, 2, 3, 2147483647, 7⟩ [] (by decide) (by decide)).1⟩

/-- C10: for every sequence of scene objects appended to the store, one pass of the render
loop submits exactly one draw per stored object, in insertion order: the list of draws is
the list of stored objects, each drawn with its own VAO, offset, colour and vertex count
under the active shader; with an empty store no draw is submitted. -/
theorem renderPass_draws {K : Type} (activeShader : Nat) (objs : List (SceneObject K))
    (gl : GLState K) :
    (renderPass activeShader (appendAll [] objs) gl).draws = objs.map (drawOf activeShader) ∧
    (renderPass activeShader (appendAll [] objs) gl).draws.length = objs.length ∧
    (∀ k : Nat, (renderPass activeShader (appendAll [] objs) gl).draws[k]?
      = objs[k]?.map (drawOf activeShader)) ∧
    (renderPass activeShader ([] : List (SceneObject K)) gl).draws = [] := by
  have h : (renderPass activeShader (appendAll [] objs) gl).draws
      = objs.map (drawOf activeShader) := by
    rw [appendAll_eq]
    simp [renderPass, foldl_draw_draws, glUseProgram]
  refine ⟨h, ?_, ?_, ?_⟩
  · rw [h, List.length_map]
  · intro k
    rw [h, List.getElem?_map]
  · simp [renderPass, glUseProgram]

end Voronoi

namespace Weather

section CursorFacts

variable {K : Type} [LinearOrderedField K]

/-- With the range `(-1, 1)` the function is the usual screen-to-NDC map. -/
theorem cursorInRange_ndc (screenX screenY : K) (screenW screenH : Int) :
    cursorInRange screenX screenY screenW screenH (-1) 1
      = (screenX / (screenW : K) * 2 - 1, -(screenY / (screenH : K) * 2 - 1)) := by
  simp only [cursorInRange, Prod.mk.injEq]
  constructor
  · ring
  · ring

/-- The affine map `t ↦ t / w * 2 - 1` is a bijection from `[0, w]` onto `[-1, 1]`. -/
theorem ndc_axis_bijOn (w : K) (hw : 0 < w) :
    Set.BijOn (fun t : K => t / w * 2 - 1) (Set.Icc 0 w) (Set.Icc (-1) 1) := by
  have hw0 : w ≠ 0 := ne_of_gt hw
  refine ⟨?_, ?_, ?_⟩
  · intro t ht
    obtain ⟨h0, h1⟩ := ht
    have a0 : 0 ≤ t / w := div_nonneg h0 (le_of_lt hw)
    have a1 : t / w ≤ 1 := (div_le_one hw).2 h1
    constructor <;> simp only <;> linarith
  · intro t _ u _ h
    simp only at h
    have h2 : t / w = u / w := by linarith
    field_simp at h2
    exact h2
  · intro u hu
    obtain ⟨h0, h1⟩ := hu
    refine ⟨(u + 1) / 2 * w, ⟨?_, ?_⟩, ?_⟩
    · have : 0 ≤ (u + 1) / 2 := by linarith
      exact mul_nonneg this (le_of_lt hw)
    · have : (u + 1) / 2 ≤ 1 := by linarith
      calc (u + 1) / 2 * w ≤ 1 * w := mul_le_mul_of_nonneg_right this (le_of_lt hw)
        _ = w := one_mul w
    · simp only
      field_simp
      ring

end CursorFacts

/-- C4: for every viewport size `W, H > 0`, `cursorInRange(., ., W, H, -1, 1)` is a bijection
from `[0, W] x [0, H]` onto `[-1, 1] x [-1, 1]`; it sends `(0, 0)` to the corner `(-1, 1)`
and `(W/2, H/2)` to `(0, 0)`. -/
theorem cursorInRange_bijOn {K : Type} [LinearOrderedField K] (W H : Int)
    (hW : 0 < W) (hH : 0 < H) :
    Set.BijOn (fun p : K × K => cursorInRange p.1 p.2 W H (-1) 1)
      (Set.Icc (0 : K) (W : K) ×ˢ Set.Icc (0 : K) (H : K))
      (Set.Icc (-1 : K) 1 ×ˢ Set.Icc (-1 : K) 1) ∧
    cursorInRange (0 : K) 0 W H (-1) 1 = (-1, 1) ∧
    cursorInRange ((W : K) / 2) ((H : K) / 2) W H (-1) 1 = (0, 0) := by
  have hWK : (0 : K) < (W : K) := by exact_mod_cast hW
  have hHK : (0 : K) < (H : K) := by exact_mod_cast hH
  obtain ⟨mx, ix, sx⟩ := ndc_axis_bijOn (W : K) hWK
  obtain ⟨my, iy, sy⟩ := ndc_axis_bijOn (H : K) hHK
  refine ⟨⟨?_, ?_, ?_⟩, ?_, ?_⟩
  · rintro ⟨x, y⟩ ⟨hx, hy⟩
    simp only [cursorInRange_ndc]
    have h1 := mx hx
    have h2 := my hy
    simp only [Set.mem_Icc] at h1 h2
    refine ⟨⟨h1.1, h1.2⟩, ⟨?_, ?_⟩⟩ <;> simp only <;> linarith
  · rintro ⟨x, y⟩ ⟨hx, hy⟩ ⟨x', y'⟩ ⟨hx', hy'⟩ h
    simp only [cursorInRange_ndc, Prod.mk.injEq, neg_inj] at h
    rw [Prod.mk.injEq]
    exact ⟨ix hx hx' h.1, iy hy hy' h.2⟩
  · rintro ⟨u, v⟩ ⟨hu, hv⟩
    have hv' : -v ∈ Set.Icc (-1 : K) 1 := by
      simp only [Set.mem_Icc] at hv ⊢
      constructor <;> linarith
    obtain ⟨x, hx, hxu⟩ := sx hu
    obtain ⟨y, hy, hyv⟩ := sy hv'
    refine ⟨(x, y), ⟨hx, hy⟩, ?_⟩
    simp only [cursorInRange_ndc, Prod.mk.injEq]
    simp only at hxu hyv
    exact ⟨hxu, by rw [hyv, neg_neg]⟩
  · simp [cursorInRange_ndc]
  · rw [cursorInRange_ndc, Prod.mk.injEq]
    have h1 : (W : K) ≠ 0 := ne_of_gt hWK
    have h2 : (H : K) ≠ 0 := ne_of_gt hHK
    constructor
    · field_simp; ring
    · field_simp; ring

/-- Witness for C4: the 1300 x 800 window of the weather demo, over the rationals. -/
theorem cursorInRange_bijOn_witness :
    (0 : Int) < 1300 ∧ (0 : Int) < 800 ∧
    cursorInRange (0 : ℚ) 0 1300 800 (-1) 1 = (-1, 1) ∧
    cursorInRange (((1300 : Int) : ℚ) / 2) (((800 : Int) : ℚ) / 2) 1300 800 (-1) 1 = (0, 0) :=
  ⟨by decide, by decide, (cursorInRange_bijOn 1300 800 (by decide) (by decide)).2⟩

/-- C6 (evaluation at the failing input): with `min = 0`, `max = 1` in the 1300 x 800 window,
the screen point `(0, 0)` is sent to `(-1/2, 1/2)`: `x` is neither `min = 0` nor inside
`[0, 1]`, and the right edge `screenX = 1300` is sent to `x = 1/2`, not to `max = 1`. -/
theorem cursorInRange_asymmetric_range :
    cursorInRange (0 : ℚ) 0 1300 800 0 1 = (-1 / 2, 1 / 2) ∧
    (cursorInRange (0 : ℚ) 0 1300 800 0 1).1 ∉ Set.Icc (0 : ℚ) 1 ∧
    (cursorInRange (1300 : ℚ) 0 1300 800 0 1).1 = 1 / 2 := by
  refine ⟨?_, ?_, ?_⟩
  · norm_num [cursorInRange]
  · norm_num [cursorInRange]
  · norm_num [cursorInRange]

section RainFacts

variable {K : Type} [LinearOrderedField K] [FloorRing K]

theorem trunc_of_nonneg (x : K) (h : 0 ≤ x) : trunc x = ⌊x⌋ := if_pos h

end RainFacts

section PitchFacts

variable {K : Type} [LinearOrderedField K]

theorem abs_clamp_le (x a : K) (ha : 0 ≤ a) : |clamp x (-a) a| ≤ a := by
  unfold clamp
  rw [abs_le]
  constructor
  · exact le_min (le_max_right _ _) (by linarith)
  · exact min_le_right _ _

/-- One call of `cursor_input_callback` keeps the lateral rotation within the clamp. -/
theorem cursor_input_callback_pitch (cos sin sqrt : K → K) (pi : K) (hpi : 0 ≤ pi)
    (screenW screenH : Int) (posX posY : K) (st : Globals K)
    (h : |st.rotationAroundLateral| ≤ half_pi pi * (9 / 10)) :
    |(cursor_input_callback cos sin sqrt pi screenW screenH posX posY st).rotationAroundLateral|
      ≤ half_pi pi * (9 / 10) := by
  have ha : 0 ≤ half_pi pi * (9 / 10) := by
    unfold half_pi
    positivity
  unfold cursor_input_callback
  simp only
  split_ifs
  · rw [neg_mul]
    exact abs_clamp_le _ _ ha
  · exact h

/-- Any sequence of cursor events keeps the lateral rotation within the clamp. -/
theorem runCursor_pitch (cos sin sqrt : K → K) (pi : K) (hpi : 0 ≤ pi)
    (evs : List (CursorEvent K)) (st : Globals K)
    (h : |st.rotationAroundLateral| ≤ half_pi pi * (9 / 10)) :
    |(runCursor cos sin sqrt pi evs st).rotationAroundLateral| ≤ half_pi pi * (9 / 10) := by
  induction evs generalizing st with
  | nil => exact h
  | cons e evs ih =>
    simp only [runCursor, List.foldl_cons] at ih ⊢
    exact ih _ (cursor_input_callback_pitch cos sin sqrt pi hpi _ _ _ _ st h)

end PitchFacts

/-- C8: starting from `rotationAroundLateral = 0`, after any finite sequence of
`cursor_input_callback` calls (any pointer positions and window sizes) the accumulated
lateral rotation satisfies `|rotationAroundLateral| ≤ 0.9 * (pi / 2)`. -/
theorem pitch_clamp_invariant (evs : List (CursorEvent ℝ)) :
    |(runCursor Real.cos Real.sin Real.sqrt Real.pi evs initGlobals).rotationAroundLateral|
      ≤ 0.9 * (Real.pi / 2) := by
  have h := runCursor_pitch Real.cos Real.sin Real.sqrt Real.pi Real.pi_pos.le evs initGlobals
    (by
      have : (0 : ℝ) ≤ half_pi Real.pi * (9 / 10) := by
        unfold half_pi
        have := Real.pi_pos
        positivity
      simpa [initGlobals] using this)
  have e : half_pi Real.pi * (9 / 10) = 0.9 * (Real.pi / 2) := by
    unfold half_pi
    norm_num
    ring
  rw [← e]
  exact h

section CallbackFacts

variable {K : Type} [LinearOrderedField K]

/-- What a call of `cursor_input_callback` does to the camera: below the threshold nothing;
above it, the forward vector is rebuilt from (0, 0, -1) by the rotation about the vertical
axis followed by the rotation about the lateral axis `lateralAxisAt`. -/
theorem cursor_input_callback_camForward (cos sin sqrt : K → K) (pi : K)
    (screenW screenH : Int) (posX posY : K) (st : Globals K) :
    (cursor_input_callback cos sin sqrt pi screenW screenH posX posY st).camForward
      = if dot2 (positionDiff screenW screenH posX posY st)
            (positionDiff screenW screenH posX posY st) > 1 / 100000 then
          (mulVec
            (rotate cos sin sqrt
              (cursor_input_callback cos sin sqrt pi screenW screenH posX posY
                st).rotationAroundLateral
              (lateralAxisAt cos sin sqrt
                (cursor_input_callback cos sin sqrt pi screenW screenH posX posY
                  st).rotationAroundVertical))
            ⟨(mulVec (rotateY cos sin sqrt
                (cursor_input_callback cos sin sqrt pi screenW screenH posX posY
                  st).rotationAroundVertical) ⟨0, 0, -1, 0⟩).xyz.x,
             (mulVec (rotateY cos sin sqrt
                (cursor_input_callback cos sin sqrt pi screenW screenH posX posY
                  st).rotationAroundVertical) ⟨0, 0, -1, 0⟩).xyz.y,
             (mulVec (rotateY cos sin sqrt
                (cursor_input_callback cos sin sqrt pi screenW screenH posX posY
                  st).rotationAroundVertical) ⟨0, 0, -1, 0⟩).xyz.z, 0⟩).xyz
        else st.camForward := by
  unfold cursor_input_callback positionDiff lateralAxisAt
  simp only
  split_ifs <;> rfl

end CallbackFacts

section ForwardFacts

/-- The forward vector after the rotation about the vertical axis is horizontal and of
unit length: `(-sin a, 0, -cos a)`. -/
theorem rotateY_forward (a : ℝ) :
    (mulVec (rotateY Real.cos Real.sin Real.sqrt a) ⟨0, 0, -1, 0⟩).xyz
      = ⟨-Real.sin a, 0, -Real.cos a⟩ := by
  simp [rotateY, rotate, normalize, inversesqrt, dot, mulVec, vec4.xyz]

/-- The lateral axis computed from the rotated forward vector is `(cos a, 0, -sin a)`. -/
theorem lateralAxisAt_eq (a : ℝ) :
    lateralAxisAt Real.cos Real.sin Real.sqrt a = ⟨Real.cos a, 0, -Real.sin a⟩ := by
  rw [lateralAxisAt, rotateY_forward]
  simp [cross]

theorem lateralAxisAt_ne_zero (a : ℝ) :
    lateralAxisAt Real.cos Real.sin Real.sqrt a ≠ ⟨0, 0, 0⟩ := by
  rw [lateralAxisAt_eq]
  intro h
  rw [vec3.mk.injEq] at h
  obtain ⟨hc, -, hs⟩ := h
  have := Real.cos_sq_add_sin_sq a
  rw [hc, neg_eq_zero.mp hs] at this
  norm_num at this

/-- The lateral axis has unit length, so normalizing it divides by 1. -/
theorem dot_lateralAxisAt (a : ℝ) :
    dot (lateralAxisAt Real.cos Real.sin Real.sqrt a)
      (lateralAxisAt Real.cos Real.sin Real.sqrt a) = 1 := by
  rw [lateralAxisAt_eq]
  simp only [dot]
  nlinarith [Real.cos_sq_add_sin_sq a]

/-- The forward vector after both rotations: `(-cos p * sin a, sin p, -cos p * cos a)` for
the vertical rotation `a` and the lateral rotation `p`. -/
theorem rotated_forward (a p : ℝ) :
    (mulVec (rotate Real.cos Real.sin Real.sqrt p
        (cross (mulVec (rotateY Real.cos Real.sin Real.sqrt a) ⟨0, 0, -1, 0⟩).xyz ⟨0, 1, 0⟩))
      ⟨(mulVec (rotateY Real.cos Real.sin Real.sqrt a) ⟨0, 0, -1, 0⟩).xyz.x,
       (mulVec (rotateY Real.cos Real.sin Real.sqrt a) ⟨0, 0, -1, 0⟩).xyz.y,
       (mulVec (rotateY Real.cos Real.sin Real.sqrt a) ⟨0, 0, -1, 0⟩).xyz.z, 0⟩).xyz
      = ⟨-(Real.cos p * Real.sin a), Real.sin p, -(Real.cos p * Real.cos a)⟩ := by
  have hcs := Real.cos_sq_add_sin_sq a
  have hd : dot (⟨Real.cos a, 0, -Real.sin a⟩ : vec3 ℝ) ⟨Real.cos a, 0, -Real.sin a⟩ = 1 := by
    simp only [dot]
    linear_combination hcs
  have hn : normalize Real.sqrt (⟨Real.cos a, 0, -Real.sin a⟩ : vec3 ℝ)
      = ⟨Real.cos a, 0, -Real.sin a⟩ := by
    simp [normalize, inversesqrt, hd]
  have hc : cross (⟨-Real.sin a, 0, -Real.cos a⟩ : vec3 ℝ) ⟨0, 1, 0⟩
      = ⟨Real.cos a, 0, -Real.sin a⟩ := by
    simp [cross]
  rw [rotateY_forward, hc]
  simp only [rotate, hn, mulVec, vec4.xyz, vec3.mk.injEq]
  refine ⟨?_, ?_, ?_⟩
  · ring
  · linear_combination (Real.sin p) * hcs
  · ring

/-- Within the clamp range the cosine of the lateral rotation is positive. -/
theorem cos_clamp_pos (x : ℝ) :
    0 < Real.cos (clamp x (-half_pi Real.pi * (9 / 10)) (half_pi Real.pi * (9 / 10))) := by
  have hpi := Real.pi_pos
  have ha : 0 ≤ half_pi Real.pi * (9 / 10) := by
    unfold half_pi
    positivity
  have h := abs_clamp_le x (half_pi Real.pi * (9 / 10)) ha
  rw [← neg_mul] at h
  obtain ⟨h1, h2⟩ := abs_le.mp h
  unfold half_pi at h1 h2 ⊢
  apply Real.cos_pos_of_mem_Ioo
  constructor <;> linarith

/-- One call of `cursor_input_callback` keeps the horizontal part of the forward vector
non-zero. -/
theorem cursor_input_callback_horizontal (screenW screenH : Int) (posX posY : ℝ)
    (st : Globals ℝ) (h : 0 < st.camForward.x ^ 2 + st.camForward.z ^ 2) :
    0 < (cursor_input_callback Real.cos Real.sin Real.sqrt Real.pi screenW screenH posX posY
          st).camForward.x ^ 2
      + (cursor_input_callback Real.cos Real.sin Real.sqrt Real.pi screenW screenH posX posY
          st).camForward.z ^ 2 := by
  unfold cursor_input_callback
  simp only
  split_ifs
  · rw [rotated_forward]
    simp only
    have hc := cos_clamp_pos (st.rotationAroundLateral +
      radians Real.pi (((cursorInRange posX posY screenW screenH (-1) 1).2
        - (Option.getD st.lastCursorPosition
            ⟨(cursorInRange posX posY screenW screenH (-1) 1).1,
             (cursorInRange posX posY screenW screenH (-1) 1).2⟩).y) * st.rotationGain))
    have hcs := Real.cos_sq_add_sin_sq (st.rotationAroundVertical +
      radians Real.pi (-((cursorInRange posX posY screenW screenH (-1) 1).1
        - (Option.getD st.lastCursorPosition
            ⟨(cursorInRange posX posY screenW screenH (-1) 1).1,
             (cursorInRange posX posY screenW screenH (-1) 1).2⟩).x) * st.rotationGain))
    nlinarith [mul_pos hc hc]
  · exact h

/-- Any sequence of cursor events keeps the horizontal part of the forward vector
non-zero. -/
theorem runCursor_horizontal (evs : List (CursorEvent ℝ)) (st : Globals ℝ)
    (h : 0 < st.camForward.x ^ 2 + st.camForward.z ^ 2) :
    0 < (runCursor Real.cos Real.sin Real.sqrt Real.pi evs st).camForward.x ^ 2
      + (runCursor Real.cos Real.sin Real.sqrt Real.pi evs st).camForward.z ^ 2 := by
  induction evs generalizing st with
  | nil => exact h
  | cons e evs ih =>
    simp only [runCursor, List.foldl_cons] at ih ⊢
    exact ih _ (cursor_input_callback_horizontal _ _ _ _ st h)

end ForwardFacts

/-- C9: after any sequence of `cursor_input_callback` calls from the initial
`camForward = (0, 0, -1)`, over real arithmetic, the forward vector is never parallel to
world-up (0, 1, 0): the lateral axis used for the pitch rotation is never the zero vector
(it has length 1, whatever the accumulated vertical rotation `rotV`), the cross product of
the resulting `camForward` with world-up is not zero, `camForward` has a non-zero horizontal
(XZ) component, and the length by which `processInput` divides when it normalizes
`(camForward.x, 0, camForward.z)` is not zero. -/
theorem camForward_never_vertical (evs : List (CursorEvent ℝ)) (rotV : ℝ) :
    lateralAxisAt Real.cos Real.sin Real.sqrt rotV ≠ ⟨0, 0, 0⟩ ∧
    Real.sqrt (dot (lateralAxisAt Real.cos Real.sin Real.sqrt rotV)
      (lateralAxisAt Real.cos Real.sin Real.sqrt rotV)) = 1 ∧
    cross (runCursor Real.cos Real.sin Real.sqrt Real.pi evs initGlobals).camForward ⟨0, 1, 0⟩
      ≠ ⟨0, 0, 0⟩ ∧
    ((runCursor Real.cos Real.sin Real.sqrt Real.pi evs initGlobals).camForward.x ≠ 0 ∨
      (runCursor Real.cos Real.sin Real.sqrt Real.pi evs initGlobals).camForward.z ≠ 0) ∧
    Real.sqrt (dot (forwardInXZ_arg (runCursor Real.cos Real.sin Real.sqrt Real.pi evs initGlobals))
      (forwardInXZ_arg (runCursor Real.cos Real.sin Real.sqrt Real.pi evs initGlobals))) ≠ 0 := by
  have h := runCursor_horizontal evs initGlobals (by norm_num [initGlobals])
  have hxz : (runCursor Real.cos Real.sin Real.sqrt Real.pi evs initGlobals).camForward.x ≠ 0 ∨
      (runCursor Real.cos Real.sin Real.sqrt Real.pi evs initGlobals).camForward.z ≠ 0 := by
    by_contra hne
    push_neg at hne
    rw [hne.1, hne.2] at h
    norm_num at h
  refine ⟨lateralAxisAt_ne_zero rotV, ?_, ?_, hxz, ?_⟩
  · rw [dot_lateralAxisAt, Real.sqrt_one]
  · intro hz
    simp only [cross, vec3.mk.injEq] at hz
    obtain ⟨h1, -, h3⟩ := hz
    rcases hxz with hx | hzz
    · apply hx
      linarith
    · apply hzz
      linarith
  · have hpos : 0 < dot
        (forwardInXZ_arg (runCursor Real.cos Real.sin Real.sqrt Real.pi evs initGlobals))
        (forwardInXZ_arg (runCursor Real.cos Real.sin Real.sqrt Real.pi evs initGlobals)) := by
      simp only [dot, forwardInXZ_arg]
      nlinarith
    exact ne_of_gt (Real.sqrt_pos.mpr hpos)

end Weather

namespace Voronoi

section StoreAppendFacts

variable {K : Type} [Field K]

/-- A left-button press appends exactly the cone built by `instantiateCone`. -/
theorem button_press_eq (cos sin : K → K) (env : ClickEnv K)
    (sceneObjects : List (SceneObject K)) :
    button_input_callback cos sin env GLFW_MOUSE_BUTTON_LEFT GLFW_PRESS sceneObjects
      = sceneObjects ++
          [(instantiateCone cos sin env.newVAO
              ((env.rand1 : K) / (env.RAND_MAX : K)) ((env.rand2 : K) / (env.RAND_MAX : K))
              ((env.rand3 : K) / (env.RAND_MAX : K))
              (env.mXpos * 2 / (env.VP_sizeX : K) - 1)
              (-(env.mYpos * 2 / (env.VP_sizeY : K) - 1))).1] := by
  simp only [button_input_callback, and_self, if_true]

end StoreAppendFacts

/-- C11: the store is append-only under `button_input_callback`: a left-button press grows
`sceneObjects` by exactly one element added at the end, leaving every previously stored
object unchanged and in place; pressing twice with the same answers from the outside world
stores the same cone twice (no dedup, no cap); an event with any other button or any other
action leaves `sceneObjects` unchanged. -/
theorem button_input_callback_append_only {K : Type} [Field K] (cos sin : K → K)
    (env : ClickEnv K) (button action : Int) (sceneObjects : List (SceneObject K))
    (h : ¬ (button = GLFW_MOUSE_BUTTON_LEFT ∧ action = GLFW_PRESS)) :
    (∃ s, button_input_callback cos sin env GLFW_MOUSE_BUTTON_LEFT GLFW_PRESS sceneObjects
        = sceneObjects ++ [s] ∧
      button_input_callback cos sin env GLFW_MOUSE_BUTTON_LEFT GLFW_PRESS
          (button_input_callback cos sin env GLFW_MOUSE_BUTTON_LEFT GLFW_PRESS sceneObjects)
        = sceneObjects ++ [s, s]) ∧
    (button_input_callback cos sin env GLFW_MOUSE_BUTTON_LEFT GLFW_PRESS sceneObjects).length
      = sceneObjects.length + 1 ∧
    (button_input_callback cos sin env GLFW_MOUSE_BUTTON_LEFT GLFW_PRESS sceneObjects).take
        sceneObjects.length = sceneObjects ∧
    button_input_callback cos sin env button action sceneObjects = sceneObjects := by
  refine ⟨⟨_, button_press_eq cos sin env sceneObjects, ?_⟩, ?_, ?_, ?_⟩
  · rw [button_press_eq, button_press_eq, List.append_assoc]
    rfl
  · rw [button_press_eq, List.length_append, List.length_singleton]
  · rw [button_press_eq, List.take_left]
  · simp only [button_input_callback, h, if_false]

/-- Witness for C11: a right-button press (button 1) on a store holding one cone. -/
theorem button_input_callback_append_only_witness :
    ¬ ((1 : Int) = GLFW_MOUSE_BUTTON_LEFT ∧ (1 : Int) = GLFW_PRESS) ∧
    button_input_callback (fun t : ℚ => t) (fun t : ℚ => t)
        ⟨300, 225, 1200, 900, 1, 2, 3, 2147483647, 7⟩ 1 1 [⟨1, 1080, 0, 0, 0, 0, 0⟩]
      = [⟨1, 1080, 0, 0, 0, 0, 0⟩] :=
  ⟨by decide,
    (button_input_callback_append_only (fun t : ℚ => t) (fun t : ℚ => t)
      ⟨300, 225, 1200, 900, 1, 2, 3, 2147483647, 7⟩ 1 1 [⟨1, 1080, 0, 0, 0, 0, 0⟩]
      (by decide)).2.2.2⟩

section KeyFacts

variable {K : Type}

/-- No key event touches the scene objects or the vector of shader programs. -/
theorem key_input_callback_frame (button other action mods : Int) (g : Globals K) :
    (key_input_callback button other action mods g).sceneObjects = g.sceneObjects ∧
    (key_input_callback button other action mods g).shaderPrograms = g.shaderPrograms := by
  unfold key_input_callback
  split_ifs <;> exact ⟨rfl, rfl⟩

/-- A key event keeps the active shader one of the first three programs. -/
theorem key_input_callback_active (button other action mods : Int) (g : Globals K)
    (h : ∃ i, g.activeShader = some i ∧ i < 3) :
    ∃ i, (key_input_callback button other action mods g).activeShader = some i ∧ i < 3 := by
  unfold key_input_callback
  split_ifs
  · exact ⟨0, rfl, by decide⟩
  · exact ⟨1, rfl, by decide⟩
  · exact ⟨2, rfl, by decide⟩
  · exact h

theorem runKeys_frame (evs : List KeyEvent) (g : Globals K) :
    (runKeys evs g).sceneObjects = g.sceneObjects ∧
    (runKeys evs g).shaderPrograms = g.shaderPrograms := by
  induction evs generalizing g with
  | nil => exact ⟨rfl, rfl⟩
  | cons e evs ih =>
    simp only [runKeys, List.foldl_cons] at ih ⊢
    obtain ⟨h1, h2⟩ := ih (key_input_callback e.button e.other e.action e.mods g)
    obtain ⟨f1, f2⟩ := key_input_callback_frame e.button e.other e.action e.mods g
    exact ⟨h1.trans f1, h2.trans f2⟩

theorem runKeys_active (evs : List KeyEvent) (g : Globals K)
    (h : ∃ i, g.activeShader = some i ∧ i < 3) :
    ∃ i, (runKeys evs g).activeShader = some i ∧ i < 3 := by
  induction evs generalizing g with
  | nil => exact h
  | cons e evs ih =>
    simp only [runKeys, List.foldl_cons] at ih ⊢
    exact ih _ (key_input_callback_active e.button e.other e.action e.mods g h)

end KeyFacts

/-- C12: in the voronoi demo exactly one of the three shader programs is active at any time
after initialisation: the active shader starts as `shaderPrograms[0]`; after any sequence of
key events it is `shaderPrograms[i]` for one `i < 3`, an element of the unchanged vector of
three programs; a press of key 1, 2 or 3 sets it to `shaderPrograms[0]`, `[1]` or `[2]`;
every other key or action leaves it unchanged; and the callback never modifies
`sceneObjects`. -/
theorem key_input_callback_active_shader {K : Type} (id0 id1 id2 : Nat)
    (evs : List KeyEvent) (button other action mods : Int) (g : Globals K)
    (h : ¬ (action = GLFW_PRESS ∧
      (button = GLFW_KEY_1 ∨ button = GLFW_KEY_2 ∨ button = GLFW_KEY_3))) :
    (mainInit id0 id1 id2 (startGlobals : Globals K)).activeShader = some 0 ∧
    (mainInit id0 id1 id2 (startGlobals : Globals K)).shaderPrograms
      = [⟨id0⟩, ⟨id1⟩, ⟨id2⟩] ∧
    (∃ i s, (runKeys evs (mainInit id0 id1 id2 (startGlobals : Globals K))).activeShader
        = some i ∧ i < 3 ∧
      (runKeys evs (mainInit id0 id1 id2 (startGlobals : Globals K))).shaderPrograms[i]?
        = some s) ∧
    (runKeys evs g).sceneObjects = g.sceneObjects ∧
    (key_input_callback GLFW_KEY_1 other GLFW_PRESS mods g).activeShader = some 0 ∧
    (key_input_callback GLFW_KEY_2 other GLFW_PRESS mods g).activeShader = some 1 ∧
    (key_input_callback GLFW_KEY_3 other GLFW_PRESS mods g).activeShader = some 2 ∧
    (key_input_callback button other action mods g).activeShader = g.activeShader ∧
    (key_input_callback GLFW_KEY_1 other GLFW_PRESS mods g).sceneObjects = g.sceneObjects ∧
    (key_input_callback button other action mods g).sceneObjects = g.sceneObjects := by
  have hinit : (mainInit id0 id1 id2 (startGlobals : Globals K)).shaderPrograms
      = [⟨id0⟩, ⟨id1⟩, ⟨id2⟩] := rfl
  refine ⟨rfl, hinit, ?_, (runKeys_frame evs g).1, ?_, ?_, ?_, ?_,
    (key_input_callback_frame _ _ _ _ g).1, (key_input_callback_frame _ _ _ _ g).1⟩
  · obtain ⟨i, hi, hlt⟩ := runKeys_active evs (mainInit id0 id1 id2 (startGlobals : Globals K))
      ⟨0, rfl, by decide⟩
    have hs := (runKeys_frame evs (mainInit id0 id1 id2 (startGlobals : Globals K))).2
    rw [hs, hinit]
    have hlen : i < ([⟨id0⟩, ⟨id1⟩, ⟨id2⟩] : List Shader).length := hlt
    exact ⟨i, _, hi, hlt, List.getElem?_eq_getElem hlen⟩
  · simp [key_input_callback]
  · simp [key_input_callback, GLFW_KEY_1, GLFW_KEY_2]
  · simp [key_input_callback, GLFW_KEY_1, GLFW_KEY_2, GLFW_KEY_3]
  · unfold key_input_callback
    split_ifs with h1 h2 h3
    · exact absurd ⟨h1.2, Or.inl h1.1⟩ h
    · exact absurd ⟨h2.2, Or.inr (Or.inl h2.1)⟩ h
    · exact absurd ⟨h3.2, Or.inr (Or.inr h3.1)⟩ h
    · rfl

/-- Witness for C12: releasing key 2 (action 0) while the third program is active. -/
theorem key_input_callback_active_shader_witness :
    ¬ ((0 : Int) = GLFW_PRESS ∧
      ((50 : Int) = GLFW_KEY_1 ∨ (50 : Int) = GLFW_KEY_2 ∨ (50 : Int) = GLFW_KEY_3)) ∧
    (key_input_callback 50 3 0 0
        ({ sceneObjects := [], shaderPrograms := [⟨4⟩, ⟨5⟩, ⟨6⟩], activeShader := some 2 } :
          Globals ℚ)).activeShader = some 2 :=
  ⟨by decide,
    (key_input_callback_active_shader 4 5 6 [] 50 3 0 0
      ({ sceneObjects := [], shaderPrograms := [⟨4⟩, ⟨5⟩, ⟨6⟩], activeShader := some 2 } :
        Globals ℚ) (by decide)).2.2.2.2.2.2.2.1⟩

end Voronoi

namespace Weather

/-- The object built by the `Line` constructor. -/
theorem Line_new_fst {K : Type} [LinearOrderedField K] (env : LineEnv) (start end_ offset : vec3 K) (gl : Driver K) :
    (Line.new env start end_ offset gl).1
      = { shaderProgram := env.newProgram, VBO := env.newVBO, VAO := env.newVAO,
          vertices := [start.x, start.y, start.z, end_.x, end_.y, end_.z],
          startPoint := start, endPoint := end_, MVP := mat4.one, lineColor := ⟨1, 1, 1⟩,
          offSet := offset } := rfl

/-- The uploads recorded by the driver after the `Line` constructor. -/
theorem Line_new_uploads {K : Type} [LinearOrderedField K] (env : LineEnv) (start end_ offset : vec3 K) (gl : Driver K) :
    (Line.new env start end_ offset gl).2.uploads
      = gl.uploads ++
          [{ buffer := env.newVBO, size := env.sizeof_vector * 6,
             data := [start.x, start.y, start.z, end_.x, end_.y, end_.z] }] := rfl

/-- The uploads recorded by the driver after `createArrayBuffer`. -/
theorem createArrayBuffer_uploads {K : Type} (newVBO : Nat) (array : List K) (gl : Driver K) :
    (createArrayBuffer newVBO array gl).2.uploads
      = gl.uploads ++ [{ buffer := newVBO, size := array.length * sizeof_float, data := array }] :=
  rfl

/-- The draws recorded by the driver after `Line::draw`. -/
theorem Line_draw_draws {K : Type} (line : Line K) (gl : Driver K) :
    (line.draw gl).2.draws
      = gl.draws ++
          [{ program := line.shaderProgram, MVP := line.MVP, color := line.lineColor,
             vao := line.VAO, mode := GL_LINES, first := 0, count := 2 }] := rfl

/-- C13: for every start and end point the `Line` constructor produces a vertex sequence of
exactly 2 vertices (6 floats): `start.x, start.y, start.z` followed by
`end.x, end.y, end.z`; and `Line::draw` submits exactly one draw, of 2 vertices from index 0
as a line primitive, with the program, matrix, colour and vertex array of the line. -/
theorem Line_two_vertices {K : Type} [LinearOrderedField K] (env : LineEnv)
    (start end_ offset : vec3 K) (gl gl2 : Driver K) (line : Line K) :
    (Line.new env start end_ offset gl).1.vertices
      = [start.x, start.y, start.z, end_.x, end_.y, end_.z] ∧
    (Line.new env start end_ offset gl).1.vertices.length = 6 ∧
    (Line.new env start end_ offset gl).1.vertices.length = 2 * 3 ∧
    (line.draw gl2).2.draws
      = gl2.draws ++
          [{ program := line.shaderProgram, MVP := line.MVP, color := line.lineColor,
             vao := line.VAO, mode := GL_LINES, first := 0, count := 2 }] ∧
    (line.draw gl2).2.draws.length = gl2.draws.length + 1 ∧
    (((Line.new env start end_ offset gl).1.draw gl2).2.draws.getLast?.map
        (fun d => (d.vao, d.mode, d.first, d.count))
      = some (env.newVAO, GL_LINES, 0, 2)) ∧
    (line.draw gl2).1 = 0 := by
  refine ⟨?_, ?_, ?_, Line_draw_draws line gl2, ?_, ?_, rfl⟩
  · rw [Line_new_fst]
  · rw [Line_new_fst]
    rfl
  · rw [Line_new_fst]
    rfl
  · rw [Line_draw_draws, List.length_append, List.length_singleton]
  · rw [Line_draw_draws, Line_new_fst]
    simp

/-- C16 (evaluation at the failing input): on a platform where
`sizeof(std::vector<float>)` is 24, the constructor of the rain line
`Line(vec3(0, 0.1, 0), vec3(0, 0, 0), offset)` passes `24 * 6 = 144` bytes to `glBufferData`
for an array of 6 floats (24 bytes), so the driver reads 120 bytes past its end, whereas
`createArrayBuffer` on the same array passes `6 * 4 = 24` bytes; in general the constructor
passes `sizeof(std::vector<float>) * 6` bytes. -/
theorem Line_upload_size :
    (∀ (env : LineEnv) (start end_ offset : vec3 ℚ) (gl : Driver ℚ),
      (Line.new env start end_ offset gl).2.uploads.getLast?.map (fun u => u.size)
        = some (env.sizeof_vector * 6)) ∧
    ((Line.new ⟨3, 1, 1, 24⟩ (⟨0, 1 / 10, 0⟩ : vec3 ℚ) ⟨0, 0, 0⟩ ⟨1, 2, 1⟩
        Driver.init).2.uploads
      = [{ buffer := 1, size := 144, data := [0, 1 / 10, 0, 0, 0, 0] }]) ∧
    ((Line.new ⟨3, 1, 1, 24⟩ (⟨0, 1 / 10, 0⟩ : vec3 ℚ) ⟨0, 0, 0⟩ ⟨1, 2, 1⟩
        Driver.init).2.uploads.map (fun u => u.readsPastEnd) = [true]) ∧
    ((Line.new ⟨3, 1, 1, 24⟩ (⟨0, 1 / 10, 0⟩ : vec3 ℚ) ⟨0, 0, 0⟩ ⟨1, 2, 1⟩
        Driver.init).1.vertices.length * sizeof_float = 24) ∧
    ((createArrayBuffer 1 ([0, 1 / 10, 0, 0, 0, 0] : List ℚ) Driver.init).2.uploads
      = [{ buffer := 1, size := 24, data := [0, 1 / 10, 0, 0, 0, 0] }]) ∧
    ((createArrayBuffer 1 ([0, 1 / 10, 0, 0, 0, 0] : List ℚ) Driver.init).2.uploads.map
        (fun u => u.readsPastEnd) = [false]) := by
  refine ⟨?_, ?_, ?_, ?_, ?_, ?_⟩
  · intro env start end_ offset gl
    rw [Line_new_uploads]
    simp
  · rw [Line_new_uploads]
    rfl
  · rw [Line_new_uploads]
    simp [BufferData.readsPastEnd, sizeof_float, Driver.init]
  · rw [Line_new_fst]
    rfl
  · rw [createArrayBuffer_uploads]
    rfl
  · rw [createArrayBuffer_uploads]
    simp [BufferData.readsPastEnd, sizeof_float, Driver.init]

end Weather

namespace Weather

section RainRangeFacts

variable {K : Type} [LinearOrderedField K] [FloorRing K]

/-- On a non-negative argument and a positive modulus `fmod` lies in `[0, P)`. -/
theorem fmod_range (q P : K) (hP : 0 < P) (hq : 0 ≤ q) : 0 ≤ fmod q P ∧ fmod q P < P := by
  have h1 : 0 ≤ q / P := div_nonneg hq hP.le
  have hfl : ((⌊q / P⌋ : Int) : K) ≤ q / P := Int.floor_le _
  have hlt : q / P < ((⌊q / P⌋ : Int) : K) + 1 := Int.lt_floor_add_one _
  have e : q = q / P * P := by field_simp
  unfold fmod
  rw [trunc_of_nonneg _ h1]
  constructor
  · have : ((⌊q / P⌋ : Int) : K) * P ≤ q / P * P := mul_le_mul_of_nonneg_right hfl hP.le
    linarith
  · have : q / P * P < (((⌊q / P⌋ : Int) : K) + 1) * P := mul_lt_mul_of_pos_right hlt hP
    linarith

end RainRangeFacts

section FrameFacts

variable {K : Type} [LinearOrderedField K]

/-- After `n` frames with only the DOWN key held, `rainVelocity` has dropped by `n / 100`. -/
theorem processInput_down_iterate (sqrt : K → K) (n : ℕ) (st : Globals K) :
    ((processInput sqrt ⟨false, false, false, false, false, true⟩)^[n] st).rainVelocity
      = st.rainVelocity - (n : K) / 100 := by
  induction n generalizing st with
  | zero => simp
  | succ n ih =>
    rw [Function.iterate_succ_apply, ih]
    simp only [processInput, Bool.false_eq_true, if_false, if_true]
    push_cast
    ring

theorem vec3_add_sub (p v : vec3 K) : (p.add v).sub v = p := by
  cases p
  simp [vec3.add, vec3.sub]

theorem vec3_sub_add (p v : vec3 K) : (p.sub v).add v = p := by
  cases p
  simp [vec3.add, vec3.sub]

/-- The vertical component of the normalized horizontal forward vector is zero, and so is
that of its cross product with world-up. -/
theorem forwardInXZ_y (sqrt : K → K) (st : Globals K) :
    (normalize sqrt (forwardInXZ_arg st)).y = 0 ∧
    (cross (normalize sqrt (forwardInXZ_arg st)) ⟨0, 1, 0⟩).y = 0 := by
  simp [normalize, forwardInXZ_arg, cross]

end FrameFacts

/-- C14: whenever the wrapped quantity `offset.y + currentTime * rainVelocity` is
non-negative and `rainHeight + rainLength > 0`, the height `newY` computed in
`drawRainLines` satisfies `-rainLength < newY ≤ rainHeight`; a negative wrapped quantity can
give `newY > rainHeight`: 501 frames with the DOWN key held take `rainVelocity` from 5 to
-0.01, and with that velocity at time 100 a line with base offset 0.5 is at height 10.5,
above `rainHeight = 10`. -/
theorem newY_range {K : Type} [LinearOrderedField K] [FloorRing K] (st : Globals K)
    (offset : vec3 K) (hP : 0 < st.rainHeight + st.rainLength)
    (hq : 0 ≤ offset.y + st.currentTime * st.rainVelocity) :
    (-st.rainLength < newY st offset ∧ newY st offset ≤ st.rainHeight) ∧
    ((processInput (fun x : ℚ => x) ⟨false, false, false, false, false, true⟩)^[501]
        initGlobals).rainVelocity = -1 / 100 ∧
    newY ({ initGlobals with rainVelocity := -1 / 100, currentTime := 100 } : Globals ℚ)
        ⟨0, 1 / 2, 0⟩ = 21 / 2 ∧
    ({ initGlobals with rainVelocity := -1 / 100, currentTime := 100 } : Globals ℚ).rainHeight
      < newY ({ initGlobals with rainVelocity := -1 / 100, currentTime := 100 } : Globals ℚ)
          ⟨0, 1 / 2, 0⟩ := by
  have hv : newY ({ initGlobals with rainVelocity := -1 / 100, currentTime := 100 } : Globals ℚ)
      ⟨0, 1 / 2, 0⟩ = 21 / 2 := by
    have hc : ⌈(-(5 / 101) : ℚ)⌉ = 0 := by
      rw [Int.ceil_eq_iff]
      norm_num
    norm_num [newY, initGlobals, fmod, trunc, hc]
  refine ⟨?_, ?_, hv, ?_⟩
  · obtain ⟨h0, h1⟩ := fmod_range _ _ hP hq
    unfold newY
    constructor <;> linarith
  · rw [processInput_down_iterate]
    norm_num [initGlobals]
  · rw [hv]
    norm_num [initGlobals]

/-- Witness for C14: the initial globals at time 2 and a line with base offset 3. -/
theorem newY_range_witness :
    (0 : ℚ) < (initGlobals : Globals ℚ).rainHeight + (initGlobals : Globals ℚ).rainLength ∧
    (0 : ℚ) ≤ (3 : ℚ) + 2 * 5 ∧
    -(1 / 10 : ℚ) < newY ({ initGlobals with currentTime := 2 } : Globals ℚ) ⟨0, 3, 0⟩ ∧
    newY ({ initGlobals with currentTime := 2 } : Globals ℚ) ⟨0, 3, 0⟩ ≤ 10 :=
  ⟨by norm_num [initGlobals], by norm_num,
    (newY_range ({ initGlobals with currentTime := 2 } : Globals ℚ) ⟨0, 3, 0⟩
      (by norm_num [initGlobals]) (by norm_num [initGlobals])).1⟩

/-- C15: camera height is invariant under keyboard movement (exact arithmetic): for every
`camForward` with a non-zero horizontal (XZ) component and every combination of keys,
`processInput` leaves `camPosition.y` unchanged; pressing W and S together gives the same
`camPosition` as pressing neither, and likewise A and D, so W and S together, A and D
together, or all four together leave `camPosition` unchanged. -/
theorem processInput_height {K : Type} [LinearOrderedField K] (sqrt : K → K) (keys : Keys)
    (st : Globals K) (_hxz : st.camForward.x ≠ 0 ∨ st.camForward.z ≠ 0) :
    (processInput sqrt keys st).camPosition.y = st.camPosition.y ∧
    (processInput sqrt ⟨true, true, keys.A, keys.D, keys.UP, keys.DOWN⟩ st).camPosition
      = (processInput sqrt ⟨false, false, keys.A, keys.D, keys.UP, keys.DOWN⟩ st).camPosition ∧
    (processInput sqrt ⟨keys.W, keys.S, true, true, keys.UP, keys.DOWN⟩ st).camPosition
      = (processInput sqrt ⟨keys.W, keys.S, false, false, keys.UP, keys.DOWN⟩ st).camPosition ∧
    (processInput sqrt ⟨true, true, false, false, keys.UP, keys.DOWN⟩ st).camPosition
      = st.camPosition ∧
    (processInput sqrt ⟨false, false, true, true, keys.UP, keys.DOWN⟩ st).camPosition
      = st.camPosition ∧
    (processInput sqrt ⟨true, true, true, true, keys.UP, keys.DOWN⟩ st).camPosition
      = st.camPosition := by
  obtain ⟨hf, hc⟩ := forwardInXZ_y sqrt st
  refine ⟨?_, ?_, ?_, ?_, ?_, ?_⟩
  · obtain ⟨w, s, a, d, up, down⟩ := keys
    cases w <;> cases s <;> cases a <;> cases d <;>
      simp [processInput, vec3.add, vec3.sub, vec3.scale, hf, hc]
  · simp only [processInput, if_true, Bool.false_eq_true, if_false, vec3_add_sub]
  · simp only [processInput, if_true, Bool.false_eq_true, if_false, vec3_sub_add]
  · simp only [processInput, if_true, Bool.false_eq_true, if_false, vec3_add_sub]
  · simp only [processInput, if_true, Bool.false_eq_true, if_false, vec3_sub_add]
  · simp only [processInput, if_true, Bool.false_eq_true, if_false, vec3_add_sub, vec3_sub_add]

/-- Witness for C15: the initial camera (forward (0, 0, -1)) with W and D pressed. -/
theorem processInput_height_witness :
    ((initGlobals : Globals ℚ).camForward.x ≠ 0 ∨ (initGlobals : Globals ℚ).camForward.z ≠ 0) ∧
    (processInput (fun x : ℚ => x) ⟨true, false, false, true, false, false⟩
      initGlobals).camPosition.y = (initGlobals : Globals ℚ).camPosition.y :=
  ⟨Or.inr (by norm_num [initGlobals]),
    (processInput_height (fun x : ℚ => x) ⟨true, false, false, true, false, false⟩ initGlobals
      (Or.inr (by norm_num [initGlobals]))).1⟩

end Weather
